import Mathlib

/-!
Verification of the command-line core of mtdata (`src/mtdata/main.py`):
language-pair and dataset-identifier parsing, the get/list/report
workflows, the reproducibility-signature writer, and index reindexing.
Strings are modelled as lists of characters; the Python operations
`str.split`, `str.strip` and `"sep".join` are embedded below. External
collaborators (the BCP-47 resolver, `Dataset.prepare`, `get_entries`,
the appending writer) are either modelled from the spec or taken as
parameters of the embedded workflows.
-/

abbrev Str := List Char

/-- Python `s.split(sep)` for a single-character separator (auxiliary:
`acc` holds the current field, reversed). -/
def splitOnAux (sep : Char) : Str → Str → List Str
  | [], acc => [acc.reverse]
  | c :: rest, acc =>
    if c = sep then acc.reverse :: splitOnAux sep rest []
    else splitOnAux sep rest (c :: acc)

/-- Python `s.split(sep)` for a single-character separator. -/
def splitOn (sep : Char) (s : Str) : List Str := splitOnAux sep s []

/-- Python `sep.join(parts)`. -/
def joinSep (sep : Str) : List Str → Str
  | [] => []
  | [x] => x
  | x :: y :: rest => x ++ sep ++ joinSep sep (y :: rest)

/-- Python `s.strip()`. -/
def strip (s : Str) : Str :=
  ((s.dropWhile Char.isWhitespace).reverse.dropWhile Char.isWhitespace).reverse

/-- The failure modes of the command-line core (the spec section 7
taxonomy): `formatError` embeds `argparse.ArgumentTypeError`,
`usageError` the `assert` in `get_data`, and the rest the collaborator
failures that the core propagates. -/
inductive MtError where
  | formatError (msg : Str)
  | resolutionError (code : Str)
  | usageError (msg : Str)
  | notFoundError (did : Str)
  | retrievalError (msg : Str)
  | prepareError (msg : Str)
deriving DecidableEq, Repr

/-- Modelled from the spec: the LanguageTag Resolver
(`mtdata.iso.bcp47.bcp47`, an external collaborator, not under `src/`).
It maps a raw code to its canonical tag (spec sections 2 and 8:
`de` resolves to `deu`, `en` to `eng`, canonical codes map to
themselves); unknown codes fail with a resolution error, modelled as
`none`. -/
def bcp47 (s : Str) : Option Str :=
  if s = "de".data ∨ s = "deu".data then some "deu".data
  else if s = "en".data ∨ s = "eng".data then some "eng".data
  else if s = "fr".data ∨ s = "fra".data then some "fra".data
  else none

/-- Error message of `lang_pair` (main.py line 80). -/
def langPairErrMsg (s : Str) : Str :=
  "expected value of form \"xxx-yyz\" eg \"deu-eng\"; given ".data ++ s

/-- `lang_pair` (main.py lines 77-87): split on `-`, require exactly two
parts, resolve both codes, and return the resolved pair together with a
Bool recording whether the canonical joined form differs from the input
(in which case the source logs a non-fatal suggestion). -/
def lang_pair (s : Str) : Except MtError ((Str × Str) × Bool) :=
  match splitOn '-' s with
  | [p1, p2] =>
    match bcp47 p1 with
    | none => .error (.resolutionError p1)
    | some c1 =>
      match bcp47 p2 with
      | none => .error (.resolutionError p2)
      | some c2 =>
        let std_form := c1 ++ "-".data ++ c2
        .ok ((c1, c2), decide (std_form ≠ s))
  | _ => .error (.formatError (langPairErrMsg s))

/-- `DatasetId` (from `mtdata.entry`): group, name, version and a
resolved language pair. Language tags are identified with their
canonical string form (spec section 3). -/
structure DatasetId where
  group : Str
  name : Str
  version : Str
  langs : Str × Str
deriving DecidableEq, Repr

/-- Modelled from the spec: the string form of a `DatasetId`
(`mtdata.entry`, not under `src/`): the hyphen-joined
`group-name-version-source-target` form with canonical language fields
(spec section 3: the round trip is not byte-identical because `langs`
may normalize). -/
def DatasetId.toStr (d : DatasetId) : Str :=
  d.group ++ "-".data ++ d.name ++ "-".data ++ d.version ++ "-".data
    ++ d.langs.1 ++ "-".data ++ d.langs.2

/-- The 5-field template named in the `dataset_id` error message
(main.py line 91). -/
def expected_format : Str := "<group>-<name>-<version>-<l1>-<l2>".data

/-- Error message of `dataset_id` (main.py lines 94-95). -/
def didErrMsg (s : Str) : Str :=
  "Dataset ID expected in format: ".data ++ expected_format
    ++ "; but given ".data ++ s
    ++ ". If you are unsure, run \"mtdata list | grep -i <name>\" and copy its id.".data

/-- `dataset_id` (main.py lines 90-102): strip, split on `-`, require
exactly 5 fields, resolve the last two as a language pair via
`lang_pair`. The `DatasetId` constructor itself is modelled as total:
the spec names no concrete semantic-validation failure (spec section
4.2). -/
def dataset_id (s : Str) : Except MtError DatasetId :=
  match splitOn '-' (strip s) with
  | [group, name, version, lang1, lang2] =>
    match lang_pair (lang1 ++ "-".data ++ lang2) with
    | .error e => .error e
    | .ok (langs, _) => .ok ⟨group, name, version, langs⟩
  | _ => .error (.formatError (didErrMsg s))

/-- The filesystem is modelled as an association list from paths to file
contents (earliest entry wins on lookup). -/
abbrev FS := List (Str × Str)

/-- Content of the file at path `p`, or `none` when it does not exist. -/
def readFile : FS → Str → Option Str
  | [], _ => none
  | (q, c) :: rest, p => if q = p then some c else readFile rest p

/-- Python `Path.exists()`. -/
def fileExists (fs : FS) (p : Str) : Bool := (readFile fs p).isSome

/-- Modelled from the spec: `IO.writer(path, append=True)` followed by
`w.write(content)` (`mtdata.utils.IO`, not under `src/`): append-only
write that creates the file when absent and otherwise extends its
content (spec sections 4.5 and 6). -/
def writeAppend : FS → Str → Str → FS
  | [], p, c => [(p, c)]
  | (q, c0) :: rest, p, c =>
    if q = p then (q, c0 ++ c) :: rest else (q, c0) :: writeAppend rest p c

/-- Remove every entry at path `p` (auxiliary for renaming). -/
def removeFile : FS → Str → FS
  | [], _ => []
  | (q, c) :: rest, p =>
    if q = p then removeFile rest p else (q, c) :: removeFile rest p

/-- Python `Path.rename(dst)`: the content moves from `src` to `dst`,
silently replacing any previous file at `dst`. -/
def renameFile (fs : FS) (src dst : Str) : FS :=
  match readFile fs src with
  | none => fs
  | some c => removeFile (removeFile fs src) dst ++ [(dst, c)]

/-- The final path component (after the last `/`). -/
def pathName (p : Str) : Str := (p.reverse.takeWhile (fun c => c ≠ '/')).reverse

/-- Python `PurePath` stem of a file name: everything before the last
`.`, provided that dot is not the leading character. -/
def nameStem (name : Str) : Str :=
  let k := name.reverse.findIdx (fun c => c = '.')
  if k + 1 < name.length then name.take (name.length - (k + 1)) else name

/-- Python `Path.with_suffix(suf)`: replace (or add) the suffix of the
final path component. -/
def with_suffix (p : Str) (suf : Str) : Str :=
  let name := pathName p
  p.take (p.length - name.length) ++ nameStem name ++ suf

/-- The arguments that reach `get_data` (main.py lines 139-154), after
argparse has already parsed `-l` via `lang_pair` and `-tr`/`-ts` via
`dataset_id`. An absent `-tr`/`-ts` flag and an empty one are both
falsy in the source and behave identically, so both are modelled as
`[]`. -/
structure GetArgs where
  langs : Str × Str
  train_dids : List DatasetId
  test_dids : List DatasetId
  out : Str
  merge : Bool

/-- The external Acquisition collaborator `Dataset.prepare`
(`mtdata.data`, not under `src/`), taken as a parameter: it transforms
the filesystem and either succeeds or reports an error, leaving on disk
whatever it wrote before failing (spec section 7). -/
abbrev Prepare := GetArgs → FS → FS × Option MtError

/-- The path of the signature file, `args.out / 'mtdata.signature.txt'`
(main.py line 43). -/
def sigPath (out : Str) : Str := out ++ "/mtdata.signature.txt".data

/-- The `cli_sig` string of `get_data` (main.py lines 37-39). -/
def cli_sig (args : GetArgs) : Str :=
  "-l ".data ++ joinSep "-".data [args.langs.1, args.langs.2]
  ++ (if args.train_dids.isEmpty then []
      else " -tr ".data ++ joinSep " ".data (args.train_dids.map DatasetId.toStr))
  ++ (if args.test_dids.isEmpty then []
      else " -ts ".data ++ joinSep " ".data (args.test_dids.map DatasetId.toStr))

/-- The signature record `sig` of `get_data` (main.py line 40); the
tool version is a parameter (`mtdata.__version__` is not under
`src/`). -/
def mkSig (args : GetArgs) (ver : Str) : Str :=
  "mtdata get ".data ++ cli_sig args ++ " -o <out-dir>\nmtdata version ".data
    ++ ver ++ "\n".data

/-- `get_data` (main.py lines 31-44): assert that train or test ids are
given, run the acquisition collaborator, then append the signature
record to `<out>/mtdata.signature.txt`. The result pairs the final
filesystem with `none` on success or the raised error. -/
def get_data (prepare : Prepare) (ver : Str) (fs : FS) (args : GetArgs) :
    FS × Option MtError :=
  if args.train_dids.isEmpty && args.test_dids.isEmpty then
    (fs, some (.usageError "Required --train or --test or both".data))
  else
    match prepare args fs with
    | (fs1, some e) => (fs1, some e)
    | (fs1, none) => (writeAppend fs1 (sigPath args.out) (mkSig args ver), none)

/-- A catalog entry as consumed read-only by the workflows (spec section
3): language components (joined with `_` by the report), a name, an
optional citation text, and the delimited summary `ent.format(delim)`
produces, kept opaque. -/
structure CatalogEntry where
  entLangs : List Str
  entName : Str
  cite : Option Str
  fmtTab : Str
deriving DecidableEq, Repr

/-- The Catalog Index query `mtdata.data.get_entries(langs, names,
not_names, fuzzy_match)` (external collaborator, not under `src/`),
taken as a parameter of the workflows: filters plus the fuzzy flag give
an ordered list of entries. -/
abbrev GetEntries :=
  Option (Str × Str) → Option (List Str) → Option (List Str) → Bool → List CatalogEntry

/-- Python `x or default` for the optional citation text: `None` and
the empty string are falsy (main.py line 27). -/
def pyOr (s : Option Str) (d : Str) : Str :=
  match s with
  | some c => if c.isEmpty then d else c
  | none => d

/-- Result of `list_data`: the entries bound by
`entries = get_entries(...)` and the printed chunks. -/
structure ListResult where
  entries : List CatalogEntry
  out_lines : List Str
deriving Repr

/-- `list_data` (main.py lines 20-28): query the catalog with
`fuzzy_match=True`, print each entry's delimited summary, with `-f`
also its citation or the literal `CITATION_NOT_LISTED`, then a total
count line. -/
def list_data (get_entries : GetEntries) (langs : Option (Str × Str))
    (names not_names : Option (List Str)) (full : Bool) : ListResult :=
  let entries := get_entries langs names not_names true
  { entries := entries
    out_lines :=
      (entries.flatMap (fun e =>
        [e.fmtTab] ++ if full then [pyOr e.cite "CITATION_NOT_LISTED".data] else []))
      ++ ["Total ".data ++ (Nat.repr entries.length).data ++ " entries".data] }

/-- One `defaultdict(int)` increment, preserving first-seen key order
(main.py lines 50-54). -/
def bumpKey (tbl : List (Str × Nat)) (k : Str) : List (Str × Nat) :=
  if tbl.any (fun e => e.1 = k) then
    tbl.map (fun e => if e.1 = k then (e.1, e.2 + 1) else e)
  else tbl ++ [(k, 1)]

/-- Frequency table of a list of keys in first-seen order. -/
def buildStats (keys : List Str) : List (Str × Nat) := keys.foldl bumpKey []

/-- Result of `generate_report`: the entries bound by
`entries = get_entries(...)` and the two frequency tables. -/
structure ReportResult where
  entries : List CatalogEntry
  lang_stats : List (Str × Nat)
  name_stats : List (Str × Nat)
deriving Repr

/-- `generate_report` (main.py lines 47-62): query the catalog with the
call `get_entries(langs, names, not_names)` — whose `fuzzy_match`
parameter defaults to `False`, modelled from the spec (sections 4.7 and
9) — and aggregate the entries into language-pair and name frequency
tables. -/
def generate_report (get_entries : GetEntries) (langs : Option (Str × Str))
    (names not_names : Option (List Str)) : ReportResult :=
  let entries := get_entries langs names not_names false
  { entries := entries
    lang_stats := buildStats (entries.map (fun e => joinSep "_".data e.entLangs))
    name_stats := buildStats (entries.map (fun e => e.entName)) }

/-- The reindex step of `main` (main.py lines 172-175): when `-ri` was
given and the cached index file exists, rename it to its `.bak` sibling
and log the rename; otherwise do nothing. The cached index file path
(`mtdata.cached_index_file`, not under `src/`) is a parameter. Returns
the new filesystem and the emitted log lines. -/
def reindexStep (reindex : Bool) (cif : Str) (fs : FS) : FS × List Str :=
  if reindex && fileExists fs cif then
    let bak := with_suffix cif ".bak".data
    (renameFile fs cif bak,
     ["Invalidate index: ".data ++ cif ++ " -> ".data ++ bak])
  else (fs, [])

/-- The subcommands registered on the argument parser (main.py lines
129, 139, 156). -/
def registeredTasks : List Str := ["list".data, "get".data, "report".data]

/-- The subparser step of `parse_args` (main.py lines 121-127,
argparse semantics embedded): with `required=True`, an accepted argv
yields a task equal to one of the registered subcommand names, and
anything else is rejected. -/
def parse_task (t : Str) : Option Str :=
  if t ∈ registeredTasks then some t else none

/-- Which branch of the dispatch in `main` a task reaches (main.py
lines 177-186). -/
inductive Dispatched where
  | dList
  | dGet
  | dListExp
  | dReport
  | dUnknown
deriving DecidableEq, Repr

/-- The dispatch chain of `main` (main.py lines 177-186): the
`list_exp` branch would call `list_experiments`, which unconditionally
raises, and the trailing branch raises "not implemented". -/
def dispatch_task (task : Str) : Dispatched :=
  if task = "list".data then .dList
  else if task = "get".data then .dGet
  else if task = "list_exp".data then .dListExp
  else if task = "report".data then .dReport
  else .dUnknown

lemma splitOnAux_append (sep : Char) (a : Str) (h : sep ∉ a) :
    ∀ s acc, splitOnAux sep (a ++ s) acc = splitOnAux sep s (a.reverse ++ acc) := by
  induction a with
  | nil => intro s acc; simp
  | cons c a ih =>
    intro s acc
    have hc : ¬(c = sep) := fun hh => h (by rw [hh]; exact List.mem_cons_self _ _)
    have h' : sep ∉ a := fun hh => h (List.mem_cons_of_mem _ hh)
    simp [splitOnAux, hc, ih h']

lemma splitOn_append_sep (sep : Char) (a b : Str) (h : sep ∉ a) :
    splitOn sep (a ++ sep :: b) = a :: splitOn sep b := by
  unfold splitOn
  rw [splitOnAux_append sep a h]
  simp [splitOnAux]

lemma splitOn_no_sep (sep : Char) (a : Str) (h : sep ∉ a) :
    splitOn sep a = [a] := by
  have := splitOnAux_append sep a h [] []
  unfold splitOn
  simpa [splitOnAux] using this

lemma splitOnAux_mem_no_sep (sep : Char) :
    ∀ s acc, sep ∉ acc → ∀ t ∈ splitOnAux sep s acc, sep ∉ t := by
  intro s
  induction s with
  | nil =>
    intro acc hacc t ht
    simp only [splitOnAux, List.mem_singleton] at ht
    subst ht
    simpa using hacc
  | cons c rest ih =>
    intro acc hacc t ht
    simp only [splitOnAux] at ht
    by_cases hc : c = sep
    · rw [if_pos hc] at ht
      rcases List.mem_cons.mp ht with h1 | h2
      · subst h1; simpa using hacc
      · exact ih [] (by simp) t h2
    · rw [if_neg hc] at ht
      refine ih (c :: acc) ?_ t ht
      intro hmem
      rcases List.mem_cons.mp hmem with h1 | h2
      · exact hc h1.symm
      · exact hacc h2

lemma splitOn_mem_no_sep (sep : Char) (s t : Str) (ht : t ∈ splitOn sep s) :
    sep ∉ t :=
  splitOnAux_mem_no_sep sep s [] (by simp) t ht

lemma splitOnAux_ne_nil (sep : Char) : ∀ s acc, splitOnAux sep s acc ≠ [] := by
  intro s
  induction s with
  | nil => intro acc; simp [splitOnAux]
  | cons c rest ih =>
    intro acc
    simp only [splitOnAux]
    split
    · simp
    · exact ih _

lemma joinSep_cons_ne_nil (sep x : Str) (l : List Str) (h : l ≠ []) :
    joinSep sep (x :: l) = x ++ sep ++ joinSep sep l := by
  cases l with
  | nil => exact absurd rfl h
  | cons y rest => rfl

lemma joinSep_splitOnAux (sep : Char) :
    ∀ s acc, joinSep [sep] (splitOnAux sep s acc) = acc.reverse ++ s := by
  intro s
  induction s with
  | nil => intro acc; simp [splitOnAux, joinSep]
  | cons c rest ih =>
    intro acc
    simp only [splitOnAux]
    by_cases hc : c = sep
    · rw [if_pos hc, joinSep_cons_ne_nil _ _ _ (splitOnAux_ne_nil sep rest []), ih []]
      subst hc
      simp
    · rw [if_neg hc, ih (c :: acc)]
      simp

lemma joinSep_splitOn (sep : Char) (s : Str) :
    joinSep [sep] (splitOn sep s) = s := by
  simpa using joinSep_splitOnAux sep s []

lemma splitOn_two_eq (sep : Char) (s a b : Str) (h : splitOn sep s = [a, b]) :
    s = a ++ sep :: b := by
  have hj := joinSep_splitOn sep s
  rw [h] at hj
  simpa [joinSep] using hj.symm

lemma readFile_writeAppend_self (fs : FS) (p c : Str) :
    readFile (writeAppend fs p c) p = some ((readFile fs p).getD [] ++ c) := by
  induction fs with
  | nil => simp [writeAppend, readFile]
  | cons e rest ih =>
    obtain ⟨q, c0⟩ := e
    by_cases h : q = p
    · simp [writeAppend, readFile, h]
    · simp [writeAppend, readFile, h, ih]

lemma readFile_writeAppend_ne (fs : FS) (p c q : Str) (h : q ≠ p) :
    readFile (writeAppend fs p c) q = readFile fs q := by
  induction fs with
  | nil => simp [writeAppend, readFile, Ne.symm h]
  | cons e rest ih =>
    obtain ⟨k, c0⟩ := e
    by_cases hq : k = q
    · have hk : ¬k = p := by rw [hq]; exact h
      simp [writeAppend, readFile, hq, hk, h]
    · by_cases hk : k = p
      · simp [writeAppend, readFile, hq, hk, Ne.symm h]
      · simp [writeAppend, readFile, hq, hk, ih]

lemma readFile_removeFile_self (fs : FS) (p : Str) :
    readFile (removeFile fs p) p = none := by
  induction fs with
  | nil => simp [removeFile, readFile]
  | cons e rest ih =>
    obtain ⟨q, c⟩ := e
    by_cases h : q = p
    · simp [removeFile, readFile, h, ih]
    · simp [removeFile, readFile, h, ih]

lemma readFile_removeFile_ne (fs : FS) (p q : Str) (h : q ≠ p) :
    readFile (removeFile fs p) q = readFile fs q := by
  induction fs with
  | nil => simp [removeFile, readFile]
  | cons e rest ih =>
    obtain ⟨k, c⟩ := e
    by_cases hq : k = q
    · have hk : ¬k = p := by rw [hq]; exact h
      simp [removeFile, readFile, hq, hk, h]
    · by_cases hk : k = p
      · simp [removeFile, readFile, hq, hk, Ne.symm h, ih]
      · simp [removeFile, readFile, hq, hk, ih]

lemma readFile_append_none (fs1 fs2 : FS) (q : Str)
    (h : readFile fs1 q = none) :
    readFile (fs1 ++ fs2) q = readFile fs2 q := by
  induction fs1 with
  | nil => simp
  | cons e rest ih =>
    obtain ⟨k, c⟩ := e
    by_cases hk : k = q
    · simp [readFile, hk] at h
    · simp only [List.cons_append]
      simp only [readFile, hk, if_false] at h ⊢
      exact ih h

lemma readFile_append_some (fs1 fs2 : FS) (q c : Str)
    (h : readFile fs1 q = some c) :
    readFile (fs1 ++ fs2) q = some c := by
  induction fs1 with
  | nil => simp [readFile] at h
  | cons e rest ih =>
    obtain ⟨k, c0⟩ := e
    by_cases hk : k = q
    · simp [readFile, hk] at h ⊢
      exact h
    · simp only [List.cons_append]
      simp only [readFile, hk, if_false] at h ⊢
      exact ih h

lemma readFile_append_single_ne (A : FS) (dst c q : Str) (h : q ≠ dst) :
    readFile (A ++ [(dst, c)]) q = readFile A q := by
  cases hA : readFile A q with
  | none =>
    rw [readFile_append_none _ _ _ hA]
    simp [readFile, Ne.symm h]
  | some c0 => exact readFile_append_some _ _ _ _ hA

lemma readFile_renameFile_dst (fs : FS) (src dst c : Str)
    (hsrc : readFile fs src = some c) :
    readFile (renameFile fs src dst) dst = some c := by
  unfold renameFile
  rw [hsrc]
  rw [readFile_append_none _ _ _ (readFile_removeFile_self _ _)]
  simp [readFile]

lemma readFile_renameFile_src (fs : FS) (src dst c : Str)
    (hsrc : readFile fs src = some c) (hne : dst ≠ src) :
    readFile (renameFile fs src dst) src = none := by
  unfold renameFile
  rw [hsrc]
  have h1 : readFile (removeFile (removeFile fs src) dst) src = none := by
    rw [readFile_removeFile_ne _ _ _ (Ne.symm hne)]
    exact readFile_removeFile_self _ _
  rw [readFile_append_none _ _ _ h1]
  simp [readFile, hne]

lemma readFile_renameFile_other (fs : FS) (src dst c q : Str)
    (hsrc : readFile fs src = some c) (h1 : q ≠ src) (h2 : q ≠ dst) :
    readFile (renameFile fs src dst) q = readFile fs q := by
  unfold renameFile
  rw [hsrc]
  rw [readFile_append_single_ne _ _ _ _ h2]
  rw [readFile_removeFile_ne _ _ _ h2, readFile_removeFile_ne _ _ _ h1]

lemma DatasetId.toStr_mk (g n v : Str) (langs : Str × Str) :
    (DatasetId.mk g n v langs).toStr
      = g ++ '-' :: (n ++ '-' :: (v ++ '-' :: (langs.1 ++ '-' :: langs.2))) := by
  simp [DatasetId.toStr]

lemma lang_pair_resolved (a b c1 c2 : Str) (ha : '-' ∉ a) (hb : '-' ∉ b)
    (h1 : bcp47 a = some c1) (h2 : bcp47 b = some c2) :
    lang_pair (a ++ '-' :: b)
      = .ok ((c1, c2), decide (c1 ++ "-".data ++ c2 ≠ a ++ '-' :: b)) := by
  have hsp : splitOn '-' (a ++ '-' :: b) = [a, b] := by
    rw [splitOn_append_sep '-' a b ha, splitOn_no_sep '-' b hb]
  have hstep : lang_pair (a ++ '-' :: b)
      = (match bcp47 a with
         | none => .error (.resolutionError a)
         | some c1 =>
           match bcp47 b with
           | none => .error (.resolutionError b)
           | some c2 => .ok ((c1, c2), decide (c1 ++ "-".data ++ c2 ≠ a ++ '-' :: b))) := by
    unfold lang_pair
    rw [hsp]
  rw [hstep, h1, h2]

lemma dataset_id_reduce (s g n v l1 l2 : Str)
    (hsplit : splitOn '-' (strip s) = [g, n, v, l1, l2]) :
    dataset_id s
      = (match lang_pair (l1 ++ "-".data ++ l2) with
         | .error e => .error e
         | .ok (langs, _) => .ok ⟨g, n, v, langs⟩) := by
  unfold dataset_id
  rw [hsplit]

/-- C7: for every input string whose whitespace-stripped form does not
split on `-` into exactly 5 parts, `dataset_id` fails with a
`FormatError` whose message names the expected 5-field template and
shows the offending input; no other outcome (a crash with an unrelated
error, or success) is possible for such inputs. -/
theorem c7_malformed_dataset_id (s : Str)
    (h : (splitOn '-' (strip s)).length ≠ 5) :
    dataset_id s = .error (.formatError
      ("Dataset ID expected in format: ".data ++ expected_format
        ++ "; but given ".data ++ s
        ++ ". If you are unsure, run \"mtdata list | grep -i <name>\" and copy its id.".data)) := by
  unfold dataset_id
  split
  · rename_i g n v l1 l2 heq
    rw [heq] at h
    simp at h
  · rfl

/-- Witness for C7 at the spec's example input `only-four-fields-here`. -/
theorem c7_witness :
    (splitOn '-' (strip "only-four-fields-here".data)).length ≠ 5 ∧
    dataset_id "only-four-fields-here".data = .error (.formatError
      ("Dataset ID expected in format: ".data ++ expected_format
        ++ "; but given ".data ++ "only-four-fields-here".data
        ++ ". If you are unsure, run \"mtdata list | grep -i <name>\" and copy its id.".data)) :=
  ⟨by decide, c7_malformed_dataset_id _ (by decide)⟩

/-- C8: for every well-formed identifier string (its stripped form
splits on `-` into exactly 5 fields, and parsing succeeds, so the last
two fields resolve as a language pair), the first three
hyphen-separated fields of the string form of the parsed `DatasetId`
equal the first three fields of the stripped input: group, name and
version pass through parsing verbatim. -/
theorem c8_dataset_id_preserves_fields (s g n v l1 l2 : Str) (d : DatasetId)
    (hsplit : splitOn '-' (strip s) = [g, n, v, l1, l2])
    (hok : dataset_id s = .ok d) :
    (splitOn '-' d.toStr).take 3 = (splitOn '-' (strip s)).take 3 := by
  have hg : '-' ∉ g :=
    splitOn_mem_no_sep '-' (strip s) g (by rw [hsplit]; simp)
  have hn : '-' ∉ n :=
    splitOn_mem_no_sep '-' (strip s) n (by rw [hsplit]; simp)
  have hv : '-' ∉ v :=
    splitOn_mem_no_sep '-' (strip s) v (by rw [hsplit]; simp)
  rw [dataset_id_reduce s g n v l1 l2 hsplit] at hok
  cases hlp : lang_pair (l1 ++ "-".data ++ l2) with
  | error e => rw [hlp] at hok; simp at hok
  | ok r =>
    obtain ⟨langs, flag⟩ := r
    rw [hlp] at hok
    simp only [Except.ok.injEq] at hok
    subst hok
    rw [DatasetId.toStr_mk]
    rw [splitOn_append_sep '-' g _ hg, splitOn_append_sep '-' n _ hn,
        splitOn_append_sep '-' v _ hv, hsplit]
    simp

/-- Witness for C8 at the concrete input `statmt-news_commentary-14-de-en`. -/
theorem c8_witness :
    splitOn '-' (strip "statmt-news_commentary-14-de-en".data)
      = ["statmt".data, "news_commentary".data, "14".data, "de".data, "en".data] ∧
    dataset_id "statmt-news_commentary-14-de-en".data
      = .ok ⟨"statmt".data, "news_commentary".data, "14".data, ("deu".data, "eng".data)⟩ ∧
    (splitOn '-' (DatasetId.toStr
        ⟨"statmt".data, "news_commentary".data, "14".data, ("deu".data, "eng".data)⟩)).take 3
      = (splitOn '-' (strip "statmt-news_commentary-14-de-en".data)).take 3 :=
  ⟨by decide, rfl,
   c8_dataset_id_preserves_fields "statmt-news_commentary-14-de-en".data
     "statmt".data "news_commentary".data "14".data "de".data "en".data
     ⟨"statmt".data, "news_commentary".data, "14".data, ("deu".data, "eng".data)⟩
     (by decide) rfl⟩

/-- C9: for every valid `L1-L2` input whose two codes are already
canonical (the resolver maps each code to itself), language-pair
parsing is idempotent — parsing the canonical string form of the parsed
pair (the hyphen join of the two resolved tags, main.py line 83) yields
the same result as parsing the input — and the suggestion flag is
`false`, so no suggestion is emitted. -/
theorem c9_lang_pair_idempotent (s l1 l2 : Str)
    (hsplit : splitOn '-' s = [l1, l2])
    (h1 : bcp47 l1 = some l1) (h2 : bcp47 l2 = some l2) :
    lang_pair s = .ok ((l1, l2), false) ∧
    lang_pair (joinSep "-".data [l1, l2]) = lang_pair s := by
  have hl1 : '-' ∉ l1 := splitOn_mem_no_sep '-' s l1 (by rw [hsplit]; simp)
  have hl2 : '-' ∉ l2 := splitOn_mem_no_sep '-' s l2 (by rw [hsplit]; simp)
  have hs : s = l1 ++ '-' :: l2 := splitOn_two_eq '-' s l1 l2 hsplit
  have hjoin : joinSep "-".data [l1, l2] = s := by
    rw [hs]
    show l1 ++ ['-'] ++ l2 = l1 ++ '-' :: l2
    simp
  constructor
  · rw [hs, lang_pair_resolved l1 l2 l1 l2 hl1 hl2 h1 h2]
    have hx : l1 ++ "-".data ++ l2 = l1 ++ '-' :: l2 := by
      show l1 ++ ['-'] ++ l2 = l1 ++ '-' :: l2
      simp
    rw [hx]
    simp
  · exact congrArg lang_pair hjoin

/-- Witness for C9 at the spec's example input `deu-eng`. -/
theorem c9_witness :
    splitOn '-' "deu-eng".data = ["deu".data, "eng".data] ∧
    bcp47 "deu".data = some "deu".data ∧
    bcp47 "eng".data = some "eng".data ∧
    (lang_pair "deu-eng".data = .ok (("deu".data, "eng".data), false) ∧
     lang_pair (joinSep "-".data ["deu".data, "eng".data])
       = lang_pair "deu-eng".data) :=
  ⟨by decide, by decide, by decide,
   c9_lang_pair_idempotent _ _ _ (by decide) (by decide) (by decide)⟩

/-- An acquisition collaborator that writes nothing and succeeds. -/
def idPrepare : Prepare := fun _ fs => (fs, none)

/-- An acquisition collaborator that writes nothing and fails with a
retrieval error. -/
def failPrepare : Prepare := fun _ fs => (fs, some (.retrievalError "network down".data))

/-- A `get` invocation with neither train nor test identifiers. -/
def emptyGetArgs : GetArgs :=
  ⟨("deu".data, "eng".data), [], [], "/tmp/x".data, false⟩

/-- The `DatasetId` that `dataset_id` parses from the user string
`statmt-news_commentary-14-de-en` (language fields canonicalized). -/
def sampleDid : DatasetId :=
  ⟨"statmt".data, "news_commentary".data, "14".data, ("deu".data, "eng".data)⟩

/-- A `get` invocation with one train identifier. -/
def trainGetArgs : GetArgs :=
  ⟨("deu".data, "eng".data), [sampleDid], [], "/tmp/x".data, false⟩

lemma get_data_guard_false (args : GetArgs)
    (hids : args.train_dids ≠ [] ∨ args.test_dids ≠ []) :
    (args.train_dids.isEmpty && args.test_dids.isEmpty) = false := by
  rcases hids with h | h
  · cases htr : args.train_dids with
    | nil => exact absurd htr h
    | cons a l => simp [htr]
  · cases hts : args.test_dids with
    | nil => exact absurd hts h
    | cons a l => simp [hts]

/-- C2 (amended): for every `get` invocation in which both the train
and the test identifier sets are empty or absent, the operation fails
with a usage error whose message is the source's literal
`Required --train or --test or both` (not the claim's quoted
"train or test or both required"), before any filesystem write or
network access: the filesystem is returned unchanged and the
acquisition collaborator is never consulted (the result is the same for
every collaborator). -/
theorem c2_empty_ids_usage_error (p1 p2 : Prepare) (ver : Str) (fs : FS)
    (args : GetArgs) (htr : args.train_dids = []) (hts : args.test_dids = []) :
    get_data p1 ver fs args
      = (fs, some (.usageError "Required --train or --test or both".data)) ∧
    get_data p1 ver fs args = get_data p2 ver fs args := by
  unfold get_data
  rw [htr, hts]
  simp

/-- Counterexample for C2 as stated: at a concrete empty invocation the
failure message is the assert's literal text, which is not the claim's
"train or test or both required". -/
theorem c2_counterexample :
    get_data idPrepare "0.1".data [] emptyGetArgs
      = ([], some (.usageError "Required --train or --test or both".data)) ∧
    "Required --train or --test or both".data
      ≠ "train or test or both required".data :=
  ⟨rfl, by decide⟩

/-- Witness for C2 (amended) at a concrete empty invocation, with two
distinct collaborators. -/
theorem c2_witness :
    emptyGetArgs.train_dids = [] ∧ emptyGetArgs.test_dids = [] ∧
    (get_data idPrepare "0.1".data [] emptyGetArgs
       = ([], some (.usageError "Required --train or --test or both".data)) ∧
     get_data idPrepare "0.1".data [] emptyGetArgs
       = get_data failPrepare "0.1".data [] emptyGetArgs) :=
  ⟨rfl, rfl, c2_empty_ids_usage_error idPrepare failPrepare "0.1".data [] emptyGetArgs rfl rfl⟩

/-- C3: for every `get` invocation in which the acquisition step fails
(with any error: no catalog match, retrieval, prepare), `get_data`
aborts with that error, leaves the filesystem exactly as the
acquisition collaborator left it (no signature append), and — provided
acquisition itself did not touch the signature file — the signature
file `<out>/mtdata.signature.txt` is unchanged from before the
invocation. -/
theorem c3_prepare_failure_no_signature (prepare : Prepare) (ver : Str)
    (fs fs1 : FS) (args : GetArgs) (e : MtError)
    (hids : args.train_dids ≠ [] ∨ args.test_dids ≠ [])
    (hp : prepare args fs = (fs1, some e))
    (hsig : readFile fs1 (sigPath args.out) = readFile fs (sigPath args.out)) :
    get_data prepare ver fs args = (fs1, some e) ∧
    readFile (get_data prepare ver fs args).1 (sigPath args.out)
      = readFile fs (sigPath args.out) := by
  have hguard := get_data_guard_false args hids
  have hmain : get_data prepare ver fs args = (fs1, some e) := by
    unfold get_data
    rw [hp]
    simp [hguard]
  exact ⟨hmain, by rw [hmain]; exact hsig⟩

/-- Witness for C3: a failing acquisition at a concrete invocation
leaves no signature file. -/
theorem c3_witness :
    (trainGetArgs.train_dids ≠ [] ∨ trainGetArgs.test_dids ≠ []) ∧
    failPrepare trainGetArgs [] = ([], some (.retrievalError "network down".data)) ∧
    (get_data failPrepare "0.1".data [] trainGetArgs
       = ([], some (.retrievalError "network down".data)) ∧
     readFile (get_data failPrepare "0.1".data [] trainGetArgs).1
         (sigPath trainGetArgs.out)
       = readFile ([] : FS) (sigPath trainGetArgs.out)) :=
  ⟨Or.inl (by decide), rfl,
   c3_prepare_failure_no_signature failPrepare "0.1".data [] [] trainGetArgs
     (.retrievalError "network down".data) (Or.inl (by decide)) rfl rfl⟩

/-- C1 (amended): for every successful `get` invocation, the record
appended to the signature file consists of the line
`mtdata get -l <L1-L2> [-tr <id> <id> ...] [-ts <id> <id> ...] -o <out-dir>`
followed by the line `mtdata version <version>`, where `<L1-L2>` is the
resolved language pair, the `-tr`/`-ts` identifiers are the string
forms of the parsed `DatasetId`s (language fields canonicalized — not
the literal strings as supplied by the user), the text `<out-dir>` is
the literal placeholder `<out-dir>` (the actual output directory is not
interpolated), and `<version>` is the tool version. -/
theorem c1_signature_record (prepare : Prepare) (ver : Str) (fs fs1 : FS)
    (args : GetArgs)
    (hids : args.train_dids ≠ [] ∨ args.test_dids ≠ [])
    (hp : prepare args fs = (fs1, none)) :
    get_data prepare ver fs args
      = (writeAppend fs1 (sigPath args.out)
          ("mtdata get ".data
            ++ ("-l ".data ++ (args.langs.1 ++ "-".data ++ args.langs.2)
              ++ (if args.train_dids.isEmpty then []
                  else " -tr ".data
                    ++ joinSep " ".data (args.train_dids.map DatasetId.toStr))
              ++ (if args.test_dids.isEmpty then []
                  else " -ts ".data
                    ++ joinSep " ".data (args.test_dids.map DatasetId.toStr)))
            ++ " -o <out-dir>\nmtdata version ".data ++ ver ++ "\n".data),
         none) := by
  have hguard := get_data_guard_false args hids
  unfold get_data
  rw [hp]
  simp only [hguard, Bool.false_eq_true, if_false]
  have hcli : cli_sig args
      = "-l ".data ++ (args.langs.1 ++ "-".data ++ args.langs.2)
        ++ (if args.train_dids.isEmpty then []
            else " -tr ".data
              ++ joinSep " ".data (args.train_dids.map DatasetId.toStr))
        ++ (if args.test_dids.isEmpty then []
            else " -ts ".data
              ++ joinSep " ".data (args.test_dids.map DatasetId.toStr)) := by
    unfold cli_sig
    simp [joinSep, List.append_assoc]
  rw [mkSig, hcli]

/-- Counterexample for C1 as stated: a concrete successful `get` whose
user-supplied train identifier was `statmt-news_commentary-14-de-en`
appends a record containing the canonicalized identifier
`statmt-news_commentary-14-deu-eng` and the literal text `-o <out-dir>`
(although the output directory is `/tmp/x`), which differs from the
record the claim describes (literal identifier, actual directory). -/
theorem c1_counterexample :
    dataset_id "statmt-news_commentary-14-de-en".data = .ok sampleDid ∧
    readFile (get_data idPrepare "0.1".data [] trainGetArgs).1
        (sigPath "/tmp/x".data)
      = some "mtdata get -l deu-eng -tr statmt-news_commentary-14-deu-eng -o <out-dir>\nmtdata version 0.1\n".data ∧
    "mtdata get -l deu-eng -tr statmt-news_commentary-14-deu-eng -o <out-dir>\nmtdata version 0.1\n".data
      ≠ "mtdata get -l deu-eng -tr statmt-news_commentary-14-de-en -o /tmp/x\nmtdata version 0.1\n".data :=
  ⟨rfl, rfl, by decide⟩

/-- Witness for C1 (amended) at a concrete successful invocation. -/
theorem c1_witness :
    (trainGetArgs.train_dids ≠ [] ∨ trainGetArgs.test_dids ≠ []) ∧
    idPrepare trainGetArgs [] = ([], none) ∧
    get_data idPrepare "0.1".data [] trainGetArgs
      = (writeAppend [] (sigPath trainGetArgs.out)
          ("mtdata get ".data
            ++ ("-l ".data
              ++ (trainGetArgs.langs.1 ++ "-".data ++ trainGetArgs.langs.2)
              ++ (if trainGetArgs.train_dids.isEmpty then []
                  else " -tr ".data
                    ++ joinSep " ".data (trainGetArgs.train_dids.map DatasetId.toStr))
              ++ (if trainGetArgs.test_dids.isEmpty then []
                  else " -ts ".data
                    ++ joinSep " ".data (trainGetArgs.test_dids.map DatasetId.toStr)))
            ++ " -o <out-dir>\nmtdata version ".data ++ "0.1".data ++ "\n".data),
         none) :=
  ⟨Or.inl (by decide), rfl,
   c1_signature_record idPrepare "0.1".data [] [] trainGetArgs
     (Or.inl (by decide)) rfl⟩

/-- C6: the signature writer appends to the fixed-name file
`<out>/mtdata.signature.txt` and never overwrites it: for every
successful `get` into a directory whose signature file already exists
(with content `c` after acquisition), the resulting file content is
exactly the prior content followed by the new record, so repeated
invocations accumulate a history. -/
theorem c6_signature_append (prepare : Prepare) (ver : Str) (fs fs1 : FS)
    (args : GetArgs) (c : Str)
    (hids : args.train_dids ≠ [] ∨ args.test_dids ≠ [])
    (hp : prepare args fs = (fs1, none))
    (hc : readFile fs1 (sigPath args.out) = some c) :
    readFile (get_data prepare ver fs args).1 (sigPath args.out)
      = some (c ++ mkSig args ver) := by
  have hguard := get_data_guard_false args hids
  have hmain : get_data prepare ver fs args
      = (writeAppend fs1 (sigPath args.out) (mkSig args ver), none) := by
    unfold get_data
    rw [hp]
    simp [hguard]
  rw [hmain]
  rw [readFile_writeAppend_self, hc]
  rfl

/-- Witness for C6: a second `get` into a directory whose signature
file already holds a record extends it. -/
theorem c6_witness :
    (trainGetArgs.train_dids ≠ [] ∨ trainGetArgs.test_dids ≠ []) ∧
    idPrepare trainGetArgs [(sigPath "/tmp/x".data, "old record\n".data)]
      = ([(sigPath "/tmp/x".data, "old record\n".data)], none) ∧
    readFile (get_data idPrepare "0.1".data
        [(sigPath "/tmp/x".data, "old record\n".data)] trainGetArgs).1
        (sigPath trainGetArgs.out)
      = some ("old record\n".data ++ mkSig trainGetArgs "0.1".data) :=
  ⟨Or.inl (by decide), rfl,
   c6_signature_append idPrepare "0.1".data
     [(sigPath "/tmp/x".data, "old record\n".data)]
     [(sigPath "/tmp/x".data, "old record\n".data)]
     trainGetArgs "old record\n".data (Or.inl (by decide)) rfl rfl⟩

/-- C5: for every invocation with the reindex flag set and an existing
cached index file (at any path `cif` whose `.bak` sibling differs from
it), before the chosen subcommand runs the cache file is renamed —
not deleted: its content survives at the `.bak` sibling — the rename is
logged, and every other path `q` (in particular every already
downloaded dataset file) is left untouched; and on a filesystem where
the cache file does not exist, nothing is renamed and nothing logged. -/
theorem c5_reindex_renames_cache (cif : Str) (fs fs2 : FS) (c q : Str)
    (hbak : with_suffix cif ".bak".data ≠ cif)
    (hex : readFile fs cif = some c)
    (hq1 : q ≠ cif) (hq2 : q ≠ with_suffix cif ".bak".data)
    (hnone : readFile fs2 cif = none) :
    readFile (reindexStep true cif fs).1 (with_suffix cif ".bak".data) = some c ∧
    readFile (reindexStep true cif fs).1 cif = none ∧
    (reindexStep true cif fs).2
      = ["Invalidate index: ".data ++ cif ++ " -> ".data
          ++ with_suffix cif ".bak".data] ∧
    readFile (reindexStep true cif fs).1 q = readFile fs q ∧
    reindexStep true cif fs2 = (fs2, []) := by
  have hexists : fileExists fs cif = true := by simp [fileExists, hex]
  have hstep : reindexStep true cif fs
      = (renameFile fs cif (with_suffix cif ".bak".data),
         ["Invalidate index: ".data ++ cif ++ " -> ".data
           ++ with_suffix cif ".bak".data]) := by
    simp [reindexStep, hexists]
  refine ⟨?_, ?_, ?_, ?_, ?_⟩
  · rw [hstep]
    exact readFile_renameFile_dst fs cif _ c hex
  · rw [hstep]
    exact readFile_renameFile_src fs cif _ c hex hbak
  · rw [hstep]
  · rw [hstep]
    exact readFile_renameFile_other fs cif _ c q hex hq1 hq2
  · simp [reindexStep, fileExists, hnone]

/-- Witness for C5: a concrete filesystem holding the cache file and a
downloaded dataset file; reindexing moves the cache content to the
`.bak` sibling and leaves the dataset file alone. -/
theorem c5_witness :
    with_suffix "cache/index.pkl".data ".bak".data ≠ "cache/index.pkl".data ∧
    readFile [("cache/index.pkl".data, "IDX".data),
              ("/tmp/x/train.deu".data, "DATA".data)] "cache/index.pkl".data
      = some "IDX".data ∧
    "/tmp/x/train.deu".data ≠ "cache/index.pkl".data ∧
    "/tmp/x/train.deu".data ≠ with_suffix "cache/index.pkl".data ".bak".data ∧
    readFile ([] : FS) "cache/index.pkl".data = none ∧
    (readFile (reindexStep true "cache/index.pkl".data
        [("cache/index.pkl".data, "IDX".data),
         ("/tmp/x/train.deu".data, "DATA".data)]).1
        (with_suffix "cache/index.pkl".data ".bak".data) = some "IDX".data ∧
     readFile (reindexStep true "cache/index.pkl".data
        [("cache/index.pkl".data, "IDX".data),
         ("/tmp/x/train.deu".data, "DATA".data)]).1 "cache/index.pkl".data = none ∧
     (reindexStep true "cache/index.pkl".data
        [("cache/index.pkl".data, "IDX".data),
         ("/tmp/x/train.deu".data, "DATA".data)]).2
       = ["Invalidate index: ".data ++ "cache/index.pkl".data ++ " -> ".data
           ++ with_suffix "cache/index.pkl".data ".bak".data] ∧
     readFile (reindexStep true "cache/index.pkl".data
        [("cache/index.pkl".data, "IDX".data),
         ("/tmp/x/train.deu".data, "DATA".data)]).1 "/tmp/x/train.deu".data
       = readFile [("cache/index.pkl".data, "IDX".data),
                   ("/tmp/x/train.deu".data, "DATA".data)] "/tmp/x/train.deu".data ∧
     reindexStep true "cache/index.pkl".data [] = ([], [])) :=
  ⟨by decide, by decide, by decide, by decide, rfl,
   c5_reindex_renames_cache "cache/index.pkl".data
     [("cache/index.pkl".data, "IDX".data),
      ("/tmp/x/train.deu".data, "DATA".data)] []
     "IDX".data "/tmp/x/train.deu".data
     (by decide) (by decide) (by decide) (by decide) rfl⟩

/-- C4: for every catalog behavior and identical filter inputs, the
`list` workflow consumes exactly the entries the Catalog Index returns
with `fuzzy_match = true`, while the `report` workflow consumes exactly
the entries it returns with `fuzzy_match = false` (the source's call
leaves the parameter at its default): the fuzzy/exact asymmetry holds
for every pair of invocations. -/
theorem c4_list_fuzzy_report_exact (ge : GetEntries) (langs : Option (Str × Str))
    (names not_names : Option (List Str)) (full : Bool) :
    (list_data ge langs names not_names full).entries
      = ge langs names not_names true ∧
    (generate_report ge langs names not_names).entries
      = ge langs names not_names false :=
  ⟨rfl, rfl⟩

/-- C10: every task accepted by the argument parser (whose required
subparser registers exactly `list`, `get` and `report`) dispatches to
one of those three branches: the `list_exp` branch — the only caller of
the unconditionally-raising `list_experiments` — and the trailing
unknown-task branch are unreachable. -/
theorem c10_no_unreachable_dispatch (t task : Str)
    (h : parse_task t = some task) :
    dispatch_task task ≠ .dListExp ∧ dispatch_task task ≠ .dUnknown := by
  unfold parse_task at h
  split at h
  · rename_i hmem
    injection h with h
    subst h
    simp [registeredTasks] at hmem
    rcases hmem with h1 | h1 | h1 <;> subst h1 <;> exact ⟨by decide, by decide⟩
  · cases h

/-- Witness for C10 at the accepted task `get`. -/
theorem c10_witness :
    parse_task "get".data = some "get".data ∧
    (dispatch_task "get".data ≠ .dListExp ∧
     dispatch_task "get".data ≠ .dUnknown) :=
  ⟨by decide, c10_no_unreachable_dispatch "get".data "get".data (by decide)⟩
